import Mathlib

/-!
Shallow embedding of `stomputil/publisher.py` (the `AsyncStompPublisher`
class produced by `createPublisher`) and proofs about it.

Python dictionaries of STOMP headers are modelled as association lists
(`Dict`) with Python's update-in-place / append-if-new insertion semantics.
Header values can be strings (e.g. a destination) or numbers (e.g. the
float returned by `time.time()`), modelled by `HVal`.

Time quantities (`BEAT_TIME = 0.3`, idle timeouts, exit-flush timeouts,
`time.time()` results) are modelled as rationals.

The external `stomp.Connection` collaborator is modelled by a `BrokerEnv`
oracle that decides whether the i-th connect attempt and the i-th transmit
succeed; a failing operation raises (`Exn`), exactly as `connection.start`
/ `connection.connect` / `connection.send` may raise in the source.
-/

/-- Header values: strings or numbers (Python str / float). -/
inductive HVal where
  | str : String → HVal
  | num : ℚ → HVal
deriving DecidableEq, Repr

/-- A Python dict of headers, as an association list. -/
abbrev Dict := List (String × HVal)

/-- Membership test for a key, as in Python `k in d`. -/
def dictMem : Dict → String → Bool
  | [], _ => false
  | p :: rest, k => if p.1 = k then true else dictMem rest k

/-- Lookup, as in Python `d[k]` (value of the entry with the key). -/
def dictGet? : Dict → String → Option HVal
  | [], _ => none
  | p :: rest, k => if p.1 = k then some p.2 else dictGet? rest k

/-- Python `d[k] = v`: update the entry in place if the key is present,
otherwise append a new entry at the end (insertion order preserved). -/
def dictInsert : Dict → String → HVal → Dict
  | [], k, v => [(k, v)]
  | p :: rest, k, v => if p.1 = k then (k, v) :: rest else p :: dictInsert rest k v

/-- The invariant of a Python dict rendered as an association list:
no key occurs twice. -/
def nodupKeys : Dict → Bool
  | [] => true
  | p :: rest => !dictMem rest p.1 && nodupKeys rest

/-- Lookup of the last entry with the given key (the entry a left-to-right
sequence of `dictInsert`s would leave in force). -/
def lastGet? (d : Dict) (k : String) : Option HVal :=
  dictGet? d.reverse k

/-- Merging of `headers` and `keyword_headers` as performed by stomp.py when
`connection.send(message, headers, **keyword_headers)` is called: every
keyword header is written over the headers dict, so keyword_headers take
precedence on key collision (publisher.py line 104-105, 120). -/
def mergeHeaders (h : Dict) : Dict → Dict
  | [] => h
  | p :: rest => mergeHeaders (dictInsert h p.1 p.2) rest

/-- `PUBLISHER_TIMESTAMP_HEADER` (publisher.py line 11). -/
def PUBLISHER_TIMESTAMP_HEADER : String := "_publisher_timestamp"

/-- `BEAT_TIME = 0.3`, seconds between publisher thread heart beats
(publisher.py line 8). -/
def BEAT_TIME : ℚ := 3 / 10

/-- `IDLE_TIMEOUT = 30` (publisher.py line 9). -/
def IDLE_TIMEOUT : ℚ := 30

/-- `EXIT_TIMEOUT = 5` (publisher.py line 10). -/
def EXIT_TIMEOUT : ℚ := 5

/-- A queued message tuple `(message, headers, keyword_headers)`
(publisher.py line 113). Message bodies are opaque strings. -/
structure Msg where
  message : String
  headers : Dict
  kwHeaders : Dict
deriving DecidableEq, Repr

/-- The pure part of `send` (publisher.py lines 107-113): default `headers`
to `{}`; if `destination is not None` set `keyword_headers['destination']`;
if `PUBLISHER_TIMESTAMP_HEADER` is not in `keyword_headers` set it to
`time.time()` (passed in as `now`); build the tuple. -/
def mkMessage (destination : Option String) (message : String)
    (headers : Option Dict) (keyword_headers : Dict) (now : ℚ) : Msg :=
  let headers := headers.getD []
  let kw :=
    match destination with
    | some d => dictInsert keyword_headers "destination" (HVal.str d)
    | none => keyword_headers
  let kw :=
    if dictMem kw PUBLISHER_TIMESTAMP_HEADER then kw
    else dictInsert kw PUBLISHER_TIMESTAMP_HEADER (HVal.num now)
  ⟨message, headers, kw⟩

/-- The header set stomp.py transmits for a queued message:
`headers` overridden by `keyword_headers` (publisher.py line 120). -/
def transmittedHeaders (m : Msg) : Dict :=
  mergeHeaders m.headers m.kwHeaders

/-- The worker's state: the object fields `__should_stop` (line 80),
`__sending` (line 81), the connection's connected/disconnected status,
`idle_timeout` (line 88), `message_queue` (line 91), together with the
run-local variable `idle_time` (line 139) and counters indexing the broker
oracle (`connCnt` counts connect attempts, `sendCnt` counts transmits). -/
structure RunSt where
  should_stop : Bool
  sending : Bool
  connected : Bool
  idle_timeout : ℚ
  message_queue : List Msg
  idle_time : ℚ
  connCnt : ℕ
  sendCnt : ℕ
deriving DecidableEq, Repr

/-- `send` (publisher.py lines 93-115): construct the message tuple and put
it on the local queue. No other field of the publisher is touched, no
broker operation is consumed, and the function is total (never raises). -/
def send (s : RunSt) (destination : Option String) (message : String)
    (headers : Option Dict) (keyword_headers : Dict) (now : ℚ) : RunSt :=
  { s with message_queue :=
      s.message_queue ++ [mkMessage destination message headers keyword_headers now] }

/-- `stop` (publisher.py lines 163-170): set the stop flag (idempotent). -/
def stop (s : RunSt) : RunSt :=
  { s with should_stop := true }

/-- The broker oracle: outcome of the i-th connect attempt and of the i-th
transmit performed by this worker. -/
structure BrokerEnv where
  connectOk : ℕ → Bool
  sendOk : ℕ → Bool

/-- An environment in which every broker operation succeeds. -/
def envOk : BrokerEnv := ⟨fun _ => true, fun _ => true⟩

/-- An environment in which every connect attempt raises
(broker unreachable). -/
def envConnFail : BrokerEnv := ⟨fun _ => false, fun _ => true⟩

/-- Observable events of a run. -/
inductive Ev where
  | connect : Ev
  | transmit : Msg → Ev
  | disconnect : Ev
  | beat : Ev
deriving DecidableEq, Repr

/-- Exceptions the broker collaborator may raise. -/
inductive Exn where
  | connectError : Exn
  | transmitError : Exn
deriving DecidableEq, Repr

/-- `_connect` (publisher.py lines 122-127): if not connected, start the
connection and connect; this is fallible and may raise. -/
def connectStep (env : BrokerEnv) (s : RunSt) : RunSt × List Ev × Option Exn :=
  if s.connected then (s, [], none)
  else if env.connectOk s.connCnt then
    ({ s with connected := true, connCnt := s.connCnt + 1 }, [Ev.connect], none)
  else
    ({ s with connCnt := s.connCnt + 1 }, [], some Exn.connectError)

/-- `_send` (publisher.py lines 117-120): `connection.send`; fallible. -/
def sendStep (env : BrokerEnv) (m : Msg) (s : RunSt) : RunSt × List Ev × Option Exn :=
  if env.sendOk s.sendCnt then
    ({ s with sendCnt := s.sendCnt + 1 }, [Ev.transmit m], none)
  else
    ({ s with sendCnt := s.sendCnt + 1 }, [], some Exn.transmitError)

/-- The body of the `try` block (publisher.py lines 145-148), entered with
`__sending` already set to `True`: `m = self.message_queue.get()`,
`self._connect()`, `self._send(m)`. An exception aborts the rest of the
body and is returned. (The `[]` branch is unreachable from the drain
loop, whose guard ensures the queue is non-empty.) -/
def tryBody (env : BrokerEnv) (s : RunSt) : RunSt × List Ev × Option Exn :=
  match s.message_queue with
  | [] => (s, [], none)
  | m :: rest =>
    let s := { s with message_queue := rest }
    match connectStep env s with
    | (s1, evs, some e) => (s1, evs, some e)
    | (s1, evs, none) =>
      match sendStep env m s1 with
      | (s2, evs2, e2) => (s2, evs ++ evs2, e2)

/-- One iteration of the inner drain loop's `try ... finally` (publisher.py
lines 144-150): set `__sending = True`, run the body, and in every case —
normal completion or exception — reset `__sending = False` (`finally`). -/
def attemptOne (env : BrokerEnv) (s : RunSt) : RunSt × List Ev × Option Exn :=
  let r := tryBody env { s with sending := true }
  ({ r.1 with sending := false }, r.2.1, r.2.2)

/-- The inner drain loop `while not self.message_queue.empty()`
(publisher.py lines 143-151), driven by the queue contents `ms` (kept in
sync with `s.message_queue`): attempt one message; on success reset
`idle_time = 0` (line 151) and continue; an exception propagates out of
the loop at once. -/
def drainGo (env : BrokerEnv) : List Msg → RunSt → RunSt × List Ev × Option Exn
  | [], s => (s, [], none)
  | _ :: rest, s =>
    match attemptOne env s with
    | (s1, evs, some e) => (s1, evs, some e)
    | (s1, evs, none) =>
      match drainGo env rest { s1 with idle_time := 0 } with
      | (sf, evs2, e2) => (sf, evs ++ evs2, e2)

/-- The inner drain loop, reading the queue from the state. -/
def drain (env : BrokerEnv) (s : RunSt) : RunSt × List Ev × Option Exn :=
  drainGo env s.message_queue s

/-- The idle-disconnect check (publisher.py lines 156-157):
`if idle_time >= self.idle_timeout > -1: self._disconnect()`. The Python
chained comparison means `idle_time >= idle_timeout AND idle_timeout > -1`.
`_disconnect` (lines 129-133) stops the connection only if connected. -/
def idleCheck (s : RunSt) : RunSt × List Ev :=
  if s.idle_time ≥ s.idle_timeout ∧ s.idle_timeout > -1 then
    if s.connected then ({ s with connected := false }, [Ev.disconnect])
    else (s, [])
  else (s, [])

/-- One iteration of the outer run loop's body (publisher.py lines
142-157): drain the queue (an exception propagates), then
`time.sleep(BEAT_TIME)` (the `beat` event), `idle_time += BEAT_TIME`, and
the idle-disconnect check. -/
def loopIter (env : BrokerEnv) (s : RunSt) : RunSt × List Ev × Option Exn :=
  match drain env s with
  | (s1, evs, some e) => (s1, evs, some e)
  | (s1, evs, none) =>
    let s2 := { s1 with idle_time := s1.idle_time + BEAT_TIME }
    match idleCheck s2 with
    | (s3, evs2) => (s3, evs ++ Ev.beat :: evs2, none)

/-- The outer run loop (publisher.py lines 139-157):
`while not (self.should_stop() and self.message_queue.empty())` run the
body; when the guard fails the loop — and `run` itself — simply ends,
with no code after it. An exception in the body propagates out of `run`.
`fuel` bounds the number of guard evaluations; `none` means the loop was
still running when the fuel ran out. -/
def runAux (env : BrokerEnv) : ℕ → RunSt → Option (RunSt × List Ev × Option Exn)
  | 0, _ => none
  | fuel + 1, s =>
    if s.should_stop && s.message_queue.isEmpty then
      some (s, [], none)
    else
      match loopIter env s with
      | (s1, evs, some e) => some (s1, evs, some e)
      | (s1, evs, none) =>
        match runAux env fuel s1 with
        | none => none
        | some (sf, evs2, e2) => some (sf, evs ++ evs2, e2)

/-- The messages carried by the transmit events of a trace, in order. -/
def transmitsOf (evs : List Ev) : List Msg :=
  evs.filterMap (fun e => match e with | Ev.transmit m => some m | _ => none)

/-- The world as `_finalize` observes it at its n-th poll:
`(message_queue.empty(), __sending)`. -/
abbrev FinWorld := ℕ → Bool × Bool

/-- `_finalize` (publisher.py lines 185-198):
`finalize_time = 0; while not empty or sending: if finalize_time >= timeout > -1:
break; sleep(BEAT_TIME); finalize_time += BEAT_TIME`. Returns the elapsed
`finalize_time` on return, `none` if still looping after `fuel` polls. -/
def finalizeAux (world : FinWorld) (timeout : ℚ) : ℕ → ℕ → ℚ → Option ℚ
  | 0, _, _ => none
  | fuel + 1, k, t =>
    let w := world k
    if !w.1 || w.2 then
      if t ≥ timeout ∧ timeout > -1 then some t
      else finalizeAux world timeout fuel (k + 1) (t + BEAT_TIME)
    else some t

/-- `_finalize` from the start of its loop. -/
def finalize (world : FinWorld) (timeout : ℚ) (fuel : ℕ) : Option ℚ :=
  finalizeAux world timeout fuel 0 0


/-- The arguments of one `send` call. -/
structure SendReq where
  destination : Option String
  message : String
  headers : Option Dict
  keyword_headers : Dict
  now : ℚ

/-- The message a `send` call with these arguments enqueues. -/
def mkOf (r : SendReq) : Msg :=
  mkMessage r.destination r.message r.headers r.keyword_headers r.now

/-- One `send` call with packaged arguments. -/
def sendReq (s : RunSt) (r : SendReq) : RunSt :=
  send s r.destination r.message r.headers r.keyword_headers r.now

/-- A sequence of `send` calls made in order from a single thread. -/
def sendAll (s : RunSt) (rs : List SendReq) : RunSt :=
  rs.foldl sendReq s

/-- A sample message. -/
def mEx : Msg := ⟨"hello", [], []⟩

/-- A second sample message. -/
def mEx2 : Msg := ⟨"world", [], []⟩

/-- A worker state in which `stop()` has been called while one message is
still queued, the connection is closed, and the default idle timeout is in
force. -/
def c1state : RunSt :=
  { should_stop := true, sending := false, connected := false,
    idle_timeout := IDLE_TIMEOUT, message_queue := [mEx], idle_time := 0,
    connCnt := 0, sendCnt := 0 }

/-- A worker state with two queued messages and no connection. -/
def c2state : RunSt :=
  { should_stop := false, sending := false, connected := false,
    idle_timeout := IDLE_TIMEOUT, message_queue := [mEx, mEx2], idle_time := 0,
    connCnt := 0, sendCnt := 0 }

/-- An idle, connected worker with the negative idle timeout -0.5. -/
def c3state : RunSt :=
  { should_stop := false, sending := false, connected := true,
    idle_timeout := -(1/2), message_queue := [], idle_time := 0,
    connCnt := 0, sendCnt := 0 }

/-- A stopped worker with an empty queue (the loop-exit situation). -/
def c5state : RunSt :=
  { should_stop := true, sending := false, connected := true,
    idle_timeout := IDLE_TIMEOUT, message_queue := [], idle_time := 0,
    connCnt := 0, sendCnt := 0 }

/-- An exit-flush world in which the queue is never empty and the worker is
never observed mid-send (e.g. the worker thread was never started). -/
def busyWorld : FinWorld := fun _ => (false, false)

theorem dictGet?_insert_self (d : Dict) (k : String) (v : HVal) :
    dictGet? (dictInsert d k v) k = some v := by
  induction d with
  | nil => simp [dictInsert, dictGet?]
  | cons p rest ih =>
    by_cases hp : p.1 = k <;> simp [dictInsert, dictGet?, hp, ih]

theorem dictGet?_insert_ne (d : Dict) (k q : String) (v : HVal) (h : q ≠ k) :
    dictGet? (dictInsert d k v) q = dictGet? d q := by
  induction d with
  | nil => simp [dictInsert, dictGet?, Ne.symm h]
  | cons p rest ih =>
    by_cases hp : p.1 = k
    · have : ¬ k = q := Ne.symm h
      simp [dictInsert, dictGet?, hp, this]
    · by_cases hq : p.1 = q <;> simp [dictInsert, dictGet?, hp, hq, ih, h]

theorem dictMem_insert (d : Dict) (k q : String) (v : HVal) :
    dictMem (dictInsert d k v) q = if q = k then true else dictMem d q := by
  induction d with
  | nil => by_cases hq : q = k <;> simp [dictInsert, dictMem, hq, Ne.symm]
  | cons p rest ih =>
    by_cases hp : p.1 = k
    · by_cases hq : q = k
      · simp [dictInsert, dictMem, hp, hq]
      · have hkq : ¬ k = q := fun he => hq he.symm
        have hpq : ¬ p.1 = q := hp ▸ hkq
        simp [dictInsert, dictMem, hp, hq, hkq, hpq]
    · by_cases hq : p.1 = q <;> by_cases hqk : q = k <;>
        simp_all [dictInsert, dictMem]

theorem dictGet?_eq_none_of_not_mem (d : Dict) (k : String)
    (h : dictMem d k = false) : dictGet? d k = none := by
  induction d with
  | nil => rfl
  | cons p rest ih =>
    by_cases hp : p.1 = k
    · simp [dictMem, hp] at h
    · simp only [dictMem, hp, if_false] at h
      simp [dictGet?, hp, ih h]

theorem dictMem_eq_isSome (d : Dict) (k : String) :
    dictMem d k = (dictGet? d k).isSome := by
  induction d with
  | nil => rfl
  | cons p rest ih =>
    by_cases hp : p.1 = k <;> simp [dictMem, dictGet?, hp, ih]

theorem nodupKeys_insert (d : Dict) (k : String) (v : HVal)
    (h : nodupKeys d = true) : nodupKeys (dictInsert d k v) = true := by
  induction d with
  | nil => simp [dictInsert, nodupKeys, dictMem]
  | cons p rest ih =>
    rw [nodupKeys] at h
    simp only [Bool.and_eq_true, Bool.not_eq_true'] at h
    obtain ⟨h1, h2⟩ := h
    by_cases hp : p.1 = k
    · simp [dictInsert, hp, nodupKeys, hp ▸ h1, h2]
    · simp only [dictInsert, hp, if_false, nodupKeys, Bool.and_eq_true,
        Bool.not_eq_true']
      refine ⟨?_, ih h2⟩
      rw [dictMem_insert]
      simp [h1, hp]

theorem dictGet?_merge (d : Dict) :
    ∀ (h : Dict) (k : String), nodupKeys d = true →
      dictGet? (mergeHeaders h d) k = (dictGet? d k).elim (dictGet? h k) some := by
  induction d with
  | nil => intro h k _; simp [mergeHeaders, dictGet?]
  | cons p rest ih =>
    intro h k hd
    rw [nodupKeys] at hd
    simp only [Bool.and_eq_true, Bool.not_eq_true'] at hd
    obtain ⟨h1, h2⟩ := hd
    rw [mergeHeaders, ih _ _ h2]
    by_cases hp : p.1 = k
    · have hnone : dictGet? rest k = none :=
        dictGet?_eq_none_of_not_mem _ _ (hp ▸ h1)
      simp [hnone, dictGet?, hp, hp ▸ dictGet?_insert_self h p.1 p.2]
    · have hne : k ≠ p.1 := fun he => hp he.symm
      cases hg : dictGet? rest k <;>
        simp [hg, dictGet?, hp, dictGet?_insert_ne _ _ _ _ hne]

theorem transmitsOf_append (a b : List Ev) :
    transmitsOf (a ++ b) = transmitsOf a ++ transmitsOf b := by
  simp [transmitsOf]

theorem attemptOne_envOk (s : RunSt) (m : Msg) (rest : List Msg)
    (h : s.message_queue = m :: rest) :
    (attemptOne envOk s).2.2 = none
    ∧ (attemptOne envOk s).1.message_queue = rest
    ∧ transmitsOf (attemptOne envOk s).2.1 = [m]
    ∧ (attemptOne envOk s).1.should_stop = s.should_stop
    ∧ (attemptOne envOk s).1.sending = false
    ∧ Ev.beat ∉ (attemptOne envOk s).2.1 := by
  by_cases hc : s.connected <;>
    simp [attemptOne, tryBody, connectStep, sendStep, envOk, h, hc, transmitsOf]

theorem drainGo_envOk (ms : List Msg) :
    ∀ s : RunSt, s.message_queue = ms →
      (drainGo envOk ms s).2.2 = none
      ∧ (drainGo envOk ms s).1.message_queue = []
      ∧ transmitsOf (drainGo envOk ms s).2.1 = ms
      ∧ (drainGo envOk ms s).1.should_stop = s.should_stop
      ∧ Ev.beat ∉ (drainGo envOk ms s).2.1 := by
  induction ms with
  | nil => intro s h; simp [drainGo, transmitsOf, h]
  | cons m rest ih =>
    intro s h
    have ha := attemptOne_envOk s m rest h
    rcases hA : attemptOne envOk s with ⟨s1, evs, e⟩
    rw [hA] at ha
    obtain ⟨he, hq1, ht1, hs1, _, hb1⟩ := ha
    simp only at he hq1 ht1 hs1 hb1
    subst he
    have hq2 : ({ s1 with idle_time := 0 } : RunSt).message_queue = rest := hq1
    have hb := ih { s1 with idle_time := 0 } hq2
    rcases hB : drainGo envOk rest { s1 with idle_time := 0 } with ⟨sf, evs2, e2⟩
    rw [hB] at hb
    obtain ⟨he2, hqf, htf, hsf, hbf⟩ := hb
    simp only at he2 hqf htf hsf hbf
    subst he2
    simp only [drainGo, hA, hB]
    refine ⟨trivial, hqf, ?_, hsf.trans hs1, ?_⟩
    · rw [transmitsOf_append, ht1, htf]; rfl
    · simp only [List.mem_append]
      exact fun hc => hc.elim hb1 hbf

theorem drain_envOk (s : RunSt) :
    (drain envOk s).2.2 = none
    ∧ (drain envOk s).1.message_queue = []
    ∧ transmitsOf (drain envOk s).2.1 = s.message_queue
    ∧ (drain envOk s).1.should_stop = s.should_stop
    ∧ Ev.beat ∉ (drain envOk s).2.1 :=
  drainGo_envOk s.message_queue s rfl

theorem idleCheck_fields (s : RunSt) :
    (idleCheck s).1.message_queue = s.message_queue
    ∧ (idleCheck s).1.should_stop = s.should_stop
    ∧ (idleCheck s).1.sending = s.sending
    ∧ transmitsOf (idleCheck s).2 = []
    ∧ Ev.beat ∉ (idleCheck s).2 := by
  unfold idleCheck
  split_ifs <;> simp [transmitsOf]

theorem transmitsOf_beat_cons (l : List Ev) :
    transmitsOf (Ev.beat :: l) = transmitsOf l := rfl

theorem loopIter_envOk (s : RunSt) :
    (loopIter envOk s).2.2 = none
    ∧ (loopIter envOk s).1.message_queue = []
    ∧ (loopIter envOk s).1.should_stop = s.should_stop
    ∧ transmitsOf (loopIter envOk s).2.1 = s.message_queue
    ∧ (loopIter envOk s).2.1.count Ev.beat = 1 := by
  have hd := drain_envOk s
  rcases hD : drain envOk s with ⟨s1, evs, e⟩
  rw [hD] at hd
  obtain ⟨he, hq1, ht1, hs1, hb1⟩ := hd
  simp only at he hq1 ht1 hs1 hb1
  subst he
  have hi := idleCheck_fields { s1 with idle_time := s1.idle_time + BEAT_TIME }
  rcases hI : idleCheck { s1 with idle_time := s1.idle_time + BEAT_TIME } with ⟨s3, evs2⟩
  rw [hI] at hi
  obtain ⟨hq3, hs3, _, ht3, hb3⟩ := hi
  simp only [loopIter, hD, hI]
  refine ⟨trivial, hq3.trans hq1, hs3.trans hs1, ?_, ?_⟩
  · rw [transmitsOf_append, ht1, transmitsOf_beat_cons, ht3, List.append_nil]
  · rw [List.count_append, List.count_eq_zero.mpr hb1]
    simp [List.count_cons, List.count_eq_zero.mpr hb3]

theorem sendAll_queue (rs : List SendReq) :
    ∀ s : RunSt, (sendAll s rs).message_queue = s.message_queue ++ rs.map mkOf := by
  induction rs with
  | nil => intro s; simp [sendAll]
  | cons r rest ih =>
    intro s
    have h1 : sendAll s (r :: rest) = sendAll (sendReq s r) rest := rfl
    rw [h1, ih (sendReq s r)]
    show (s.message_queue ++ [mkOf r]) ++ rest.map mkOf
        = s.message_queue ++ (mkOf r :: rest.map mkOf)
    simp

theorem attemptOne_sending (env : BrokerEnv) (s : RunSt) :
    (attemptOne env s).1.sending = false := rfl

theorem drainGo_sending (env : BrokerEnv) (ms : List Msg) :
    ∀ s : RunSt, s.sending = false → (drainGo env ms s).1.sending = false := by
  induction ms with
  | nil => intro s h; simpa [drainGo] using h
  | cons m rest ih =>
    intro s h
    rcases hA : attemptOne env s with ⟨s1, evs, e⟩
    have hs1 : s1.sending = false := by
      have h2 := attemptOne_sending env s
      rw [hA] at h2
      exact h2
    cases e with
    | some ex => simp [drainGo, hA, hs1]
    | none =>
      rcases hB : drainGo env rest { s1 with idle_time := 0 } with ⟨sf, evs2, e2⟩
      have h3 := ih { s1 with idle_time := 0 } hs1
      rw [hB] at h3
      simp only at h3
      simp [drainGo, hA, hB, h3]

theorem idleCheck_sending (s : RunSt) : (idleCheck s).1.sending = s.sending := by
  unfold idleCheck
  split_ifs <;> rfl

theorem loopIter_sending (env : BrokerEnv) (s : RunSt) (h : s.sending = false) :
    (loopIter env s).1.sending = false := by
  rcases hD : drain env s with ⟨s1, evs, e⟩
  have h1 : s1.sending = false := by
    have h2 := drainGo_sending env s.message_queue s h
    rw [show drainGo env s.message_queue s = drain env s from rfl, hD] at h2
    exact h2
  cases e with
  | some ex => simp [loopIter, hD, h1]
  | none =>
    rcases hI : idleCheck { s1 with idle_time := s1.idle_time + BEAT_TIME } with ⟨s3, evs2⟩
    have h3 : s3.sending = false := by
      have h4 := idleCheck_sending { s1 with idle_time := s1.idle_time + BEAT_TIME }
      rw [hI] at h4
      exact h4.trans h1
    simp [loopIter, hD, hI, h3]

theorem runAux_sending (env : BrokerEnv) (fuel : ℕ) :
    ∀ s : RunSt, s.sending = false →
      (runAux env fuel s).elim True (fun r => r.1.sending = false) := by
  induction fuel with
  | zero => intro s h; simp [runAux]
  | succ n ih =>
    intro s h
    by_cases hg : (s.should_stop && s.message_queue.isEmpty) = true
    · simp [runAux, hg, h]
    · rw [Bool.not_eq_true] at hg
      rcases hL : loopIter env s with ⟨s1, evs, e⟩
      have h1 : s1.sending = false := by
        have h2 := loopIter_sending env s h
        rw [hL] at h2
        exact h2
      cases e with
      | some ex => simp [runAux, hg, hL, h1]
      | none =>
        have h3 := ih s1 h1
        rcases hR : runAux env n s1 with _ | ⟨sf, evs2, e2⟩
        · simp [runAux, hg, hL, hR]
        · rw [hR] at h3
          simp only [Option.elim] at h3
          simp [runAux, hg, hL, hR, h3]

theorem runAux_noStop (fuel : ℕ) :
    ∀ s : RunSt, s.should_stop = false → runAux envOk fuel s = none := by
  induction fuel with
  | zero => intro s _; rfl
  | succ n ih =>
    intro s h
    have hg : (s.should_stop && s.message_queue.isEmpty) = false := by simp [h]
    rcases hL : loopIter envOk s with ⟨s1, evs, e⟩
    have hl := loopIter_envOk s
    rw [hL] at hl
    obtain ⟨he, _, hs1, _, _⟩ := hl
    simp only at he hs1
    subst he
    have h1 : s1.should_stop = false := hs1.trans h
    simp [runAux, hg, hL, ih s1 h1]

theorem finalizeAux_neg_one (fuel : ℕ) :
    ∀ (k : ℕ) (t : ℚ), finalizeAux busyWorld (-1) fuel k t = none := by
  induction fuel with
  | zero => intro k t; rfl
  | succ n ih =>
    intro k t
    have hcond : ¬(t ≥ (-1 : ℚ) ∧ (-1 : ℚ) > -1) := by
      rintro ⟨_, hc⟩
      exact lt_irrefl _ hc
    simp [finalizeAux, busyWorld, hcond, ih]

theorem tsStep_facts (kw1 : Dict) (now : ℚ) (hnd : nodupKeys kw1 = true) :
    nodupKeys (if dictMem kw1 PUBLISHER_TIMESTAMP_HEADER then kw1
      else dictInsert kw1 PUBLISHER_TIMESTAMP_HEADER (HVal.num now)) = true
    ∧ dictGet? (if dictMem kw1 PUBLISHER_TIMESTAMP_HEADER then kw1
        else dictInsert kw1 PUBLISHER_TIMESTAMP_HEADER (HVal.num now))
        PUBLISHER_TIMESTAMP_HEADER
      = (if dictMem kw1 PUBLISHER_TIMESTAMP_HEADER
         then dictGet? kw1 PUBLISHER_TIMESTAMP_HEADER else some (HVal.num now)) := by
  by_cases hm : dictMem kw1 PUBLISHER_TIMESTAMP_HEADER
  · simp [hm, hnd]
  · simp [hm, nodupKeys_insert _ _ _ hnd, dictGet?_insert_self]

theorem mkMessage_ts (dest : Option String) (msg : String) (hdrs : Option Dict)
    (kw : Dict) (now : ℚ) (hnd : nodupKeys kw = true) :
    nodupKeys (mkMessage dest msg hdrs kw now).kwHeaders = true
    ∧ dictGet? (mkMessage dest msg hdrs kw now).kwHeaders PUBLISHER_TIMESTAMP_HEADER
      = (if dictMem kw PUBLISHER_TIMESTAMP_HEADER
         then dictGet? kw PUBLISHER_TIMESTAMP_HEADER else some (HVal.num now)) := by
  have hne : PUBLISHER_TIMESTAMP_HEADER ≠ "destination" := by decide
  rcases dest with _ | d
  · exact tsStep_facts kw now hnd
  · have hnd1 : nodupKeys (dictInsert kw "destination" (HVal.str d)) = true :=
      nodupKeys_insert _ _ _ hnd
    have h := tsStep_facts (dictInsert kw "destination" (HVal.str d)) now hnd1
    have hmem : dictMem (dictInsert kw "destination" (HVal.str d))
        PUBLISHER_TIMESTAMP_HEADER = dictMem kw PUBLISHER_TIMESTAMP_HEADER := by
      rw [dictMem_insert]
      simp [hne]
    have hget : dictGet? (dictInsert kw "destination" (HVal.str d))
        PUBLISHER_TIMESTAMP_HEADER = dictGet? kw PUBLISHER_TIMESTAMP_HEADER :=
      dictGet?_insert_ne _ _ _ _ hne
    refine ⟨h.1, ?_⟩
    show dictGet?
        (if dictMem (dictInsert kw "destination" (HVal.str d)) PUBLISHER_TIMESTAMP_HEADER
         then dictInsert kw "destination" (HVal.str d)
         else dictInsert (dictInsert kw "destination" (HVal.str d))
                PUBLISHER_TIMESTAMP_HEADER (HVal.num now)) PUBLISHER_TIMESTAMP_HEADER
      = (if dictMem kw PUBLISHER_TIMESTAMP_HEADER
         then dictGet? kw PUBLISHER_TIMESTAMP_HEADER else some (HVal.num now))
    rw [h.2, hmem, hget]

/-- Claim C1, counterexample: a complete, normally terminating execution of
`run` (stop requested, one queued message, default idle timeout) during
which the message is sent, the loop then exits via its guard, and no
disconnect is ever attempted: the connection is still open when `run`
returns. This refutes the claim that every path out of `run` attempts a
final disconnect. -/
theorem C1_counterexample :
    (runAux envOk 2 c1state).elim False (fun r =>
      r.2.2 = none ∧ r.1.connected = true ∧ Ev.disconnect ∉ r.2.1) := by
  norm_num [runAux, loopIter, drain, drainGo, attemptOne, tryBody, connectStep,
    sendStep, idleCheck, envOk, c1state, mEx, BEAT_TIME, IDLE_TIMEOUT]
  decide

/-- Claim C1, amended: when the run loop's guard fails (stop requested and
queue empty), `run` returns at once with the worker state untouched — in
particular the connection is left in whatever state the loop left it and no
final disconnect is attempted; the only disconnects are those of the
idle-timeout branch inside the loop. -/
theorem C1_theorem (env : BrokerEnv) (fuel : ℕ) (s : RunSt)
    (h1 : s.should_stop = true) (h2 : s.message_queue = []) :
    runAux env (fuel + 1) s = some (s, [], none) := by
  simp [runAux, h1, h2]

/-- Witness for C1_theorem at a concrete stopped worker with an open
connection and empty queue. -/
theorem C1_witness : runAux envOk 1 c5state = some (c5state, [], none) :=
  C1_theorem envOk 0 c5state rfl rfl

/-- Claim C2, counterexample: with the broker unreachable (every connect
attempt raises) and two queued messages, the worker loop terminates at once
with the connect error: stop was never requested and fuel remains, yet the
run ends, no heartbeat is ever slept (no retry), nothing is transmitted,
and the second message is still queued while the first is lost. This
refutes the claim that the loop survives a connect failure and proceeds to
the next heartbeat. -/
theorem C2_counterexample :
    (runAux envConnFail 5 c2state).elim False (fun r =>
      r.2.2 = some Exn.connectError ∧ r.2.1 = [] ∧ r.1.message_queue = [mEx2]
      ∧ r.1.should_stop = false) := by
  norm_num [runAux, loopIter, drain, drainGo, attemptOne, tryBody, connectStep,
    sendStep, idleCheck, envConnFail, c2state]

/-- Claim C2, amended: a connect failure while draining propagates out of
`run` and terminates the worker loop immediately: the `finally` clause
resets the sending flag, the dequeued message is lost, the remaining
messages stay queued, and no heartbeat or retry happens (the event trace
is empty). -/
theorem C2_theorem (s : RunSt) (m : Msg) (rest : List Msg) (fuel : ℕ)
    (hq : s.message_queue = m :: rest) (hc : s.connected = false) :
    runAux envConnFail (fuel + 1) s =
      some ({ s with
                message_queue := rest, sending := false,
                connCnt := s.connCnt + 1 }, [], some Exn.connectError) := by
  have hg : (s.should_stop && s.message_queue.isEmpty) = false := by simp [hq]
  simp [runAux, hg, loopIter, drain, drainGo, hq, attemptOne, tryBody,
    connectStep, envConnFail, hc]

/-- Witness for C2_theorem at the concrete two-message state. -/
theorem C2_witness :
    runAux envConnFail 1 c2state =
      some ({ c2state with
                message_queue := [mEx2], sending := false,
                connCnt := 1 }, [], some Exn.connectError) :=
  C2_theorem c2state mEx [mEx2] 0 rfl rfl

/-- Claim C3: the code contradicts its own documentation ("Negative value
indicates never close connection") for fractional negative timeouts. With
`idle_timeout = -0.5` — a negative value — and an open connection, one
heartbeat of the idle loop already disconnects, because the chained
comparison `idle_time >= idle_timeout > -1` is satisfied (0.3 >= -0.5 and
-0.5 > -1). With `idle_timeout = -1` the same iteration performs no
disconnect, which is the documented behaviour. -/
theorem C3_theorem :
    loopIter envOk c3state
      = ({ c3state with idle_time := 3/10, connected := false },
         [Ev.beat, Ev.disconnect], none)
    ∧ loopIter envOk { c3state with idle_timeout := -1 }
      = ({ c3state with idle_timeout := -1, idle_time := 3/10 },
         [Ev.beat], none) := by
  constructor <;>
    norm_num [loopIter, drain, drainGo, idleCheck, c3state, BEAT_TIME]

/-- Claim C4: the code contradicts its own documentation ("Negative value
indicates clear queue without timeout") for fractional negative timeouts.
With `timeout = -0.5` and a never-empty queue, `_finalize` returns
immediately (elapsed 0), because `finalize_time >= timeout > -1` holds at
once — instead of waiting unboundedly. The remaining conjuncts evaluate
the documented behaviour: with the queue already empty and the worker not
sending it returns at once; with `timeout = 2` and a busy world it returns
after 2.1 seconds (7 heartbeats); with `timeout = -1` it never returns. -/
theorem C4_theorem :
    finalize busyWorld (-(1/2)) 5 = some 0
    ∧ (∀ (t : ℚ) (fuel : ℕ), finalize (fun _ => (true, false)) t (fuel + 1) = some 0)
    ∧ finalize busyWorld 2 20 = some (21/10)
    ∧ (∀ fuel : ℕ, finalize busyWorld (-1) fuel = none) := by
  refine ⟨by norm_num [finalize, finalizeAux, busyWorld], fun t fuel => rfl,
    by norm_num [finalize, finalizeAux, busyWorld, BEAT_TIME],
    fun fuel => finalizeAux_neg_one fuel 0 0⟩

/-- Claim C5: with a reliable broker, the run loop's termination test is
exactly `should_stop AND queue empty` (first conjunct: one guard
evaluation returns iff that condition holds; second conjunct: without a
stop request the loop never returns, for any fuel); after `stop()`, a
worker with N queued messages transmits all N — in queue order — and
exits with an empty queue, sleeping at most one heartbeat (none at all if
the queue was already empty). -/
theorem C5_theorem (s : RunSt) :
    ((runAux envOk 1 s).isSome = (s.should_stop && s.message_queue.isEmpty))
    ∧ (∀ fuel : ℕ, runAux envOk fuel { s with should_stop := false } = none)
    ∧ ∃ sf evs, runAux envOk 2 (stop s) = some (sf, evs, none)
        ∧ transmitsOf evs = s.message_queue
        ∧ sf.message_queue = []
        ∧ evs.count Ev.beat ≤ (if s.message_queue.isEmpty then 0 else 1) := by
  refine ⟨?_, fun fuel => runAux_noStop fuel _ rfl, ?_⟩
  · by_cases hg : (s.should_stop && s.message_queue.isEmpty) = true
    · simp [runAux, hg]
    · rw [Bool.not_eq_true] at hg
      rcases hL : loopIter envOk s with ⟨s1, evs, e⟩
      have hl := loopIter_envOk s
      rw [hL] at hl
      have he : e = none := hl.1
      subst he
      simp [runAux, hg, hL]
  · by_cases hq : s.message_queue.isEmpty
    · have hqnil : s.message_queue = [] := by
        rwa [List.isEmpty_iff] at hq
      have hg : ((stop s).should_stop && (stop s).message_queue.isEmpty) = true := by
        simp [stop, hq]
      refine ⟨stop s, [], ?_, ?_, hqnil, ?_⟩
      · simp [runAux, hg]
      · simp [transmitsOf, hqnil]
      · simp [hq]
    · have hg : ((stop s).should_stop && (stop s).message_queue.isEmpty) = false := by
        rw [Bool.not_eq_true] at hq
        simp [stop, hq]
      rcases hL : loopIter envOk (stop s) with ⟨s1, evs, e⟩
      have hl := loopIter_envOk (stop s)
      rw [hL] at hl
      obtain ⟨he, hq1, hs1, ht1, hc1⟩ := hl
      simp only at he hq1 hs1 ht1 hc1
      subst he
      have hg2 : (s1.should_stop && s1.message_queue.isEmpty) = true := by
        rw [hq1, hs1]
        simp [stop]
      refine ⟨s1, evs, ?_, ht1, hq1, ?_⟩
      · simp [runAux, hg, hL, hg2]
      · rw [hc1]
        simp [hq]

/-- Claim C6, counterexample: a `send` whose destination is the empty
string `""` (which is not None) still gets a destination header injected:
the transmitted header set maps `destination` to `""`. This refutes the
claim that the destination is injected only when non-empty. -/
theorem C6_counterexample :
    dictGet? (transmittedHeaders (mkMessage (some "") "body" none [] 0))
      "destination" = some (HVal.str "") := by
  decide

/-- Claim C6, amended: `send` injects the destination into the keyword
headers iff the destination argument is not None — including when it is
the empty string; when it is None the destination key of the keyword
headers is left exactly as the caller passed it. -/
theorem C6_theorem (d : String) (msg : String) (hdrs : Option Dict)
    (kw : Dict) (now : ℚ) :
    dictGet? (mkMessage (some d) msg hdrs kw now).kwHeaders "destination"
      = some (HVal.str d)
    ∧ dictGet? (mkMessage none msg hdrs kw now).kwHeaders "destination"
      = dictGet? kw "destination" := by
  have hne : "destination" ≠ PUBLISHER_TIMESTAMP_HEADER := by decide
  constructor
  · show dictGet?
        (if dictMem (dictInsert kw "destination" (HVal.str d))
            PUBLISHER_TIMESTAMP_HEADER
         then dictInsert kw "destination" (HVal.str d)
         else dictInsert (dictInsert kw "destination" (HVal.str d))
                PUBLISHER_TIMESTAMP_HEADER (HVal.num now)) "destination"
      = some (HVal.str d)
    by_cases hm : dictMem (dictInsert kw "destination" (HVal.str d))
        PUBLISHER_TIMESTAMP_HEADER
    · simp [hm, dictGet?_insert_self]
    · simp [hm, dictGet?_insert_ne _ _ _ _ hne, dictGet?_insert_self]
  · show dictGet?
        (if dictMem kw PUBLISHER_TIMESTAMP_HEADER then kw
         else dictInsert kw PUBLISHER_TIMESTAMP_HEADER (HVal.num now))
        "destination"
      = dictGet? kw "destination"
    by_cases hm : dictMem kw PUBLISHER_TIMESTAMP_HEADER
    · simp [hm]
    · simp [hm, dictGet?_insert_ne _ _ _ _ hne]

/-- Claim C7, counterexample: a `send` that supplies the publisher
timestamp header with value 42 in the `headers` mapping (not in the
keyword headers) is transmitted with a freshly injected timestamp (here
99), not with the caller's value: the injection check only looks at
`keyword_headers`, and keyword headers take precedence in the stomp.py
merge. This refutes the claim that a caller-supplied timestamp header is
always transmitted unchanged. -/
theorem C7_counterexample :
    dictGet? (transmittedHeaders (mkMessage none "b"
        (some [(PUBLISHER_TIMESTAMP_HEADER, HVal.num 42)]) [] 99))
      PUBLISHER_TIMESTAMP_HEADER = some (HVal.num 99)
    ∧ HVal.num 99 ≠ HVal.num 42 := by
  constructor
  · decide
  · decide

/-- Claim C7, amended: when the publisher timestamp header is absent from
the keyword headers, a fresh timestamp is injected there and is the
transmitted value — overriding any value the caller put in the `headers`
mapping; when the caller supplies it in the keyword headers, that value is
transmitted unchanged. -/
theorem C7_theorem (dest : Option String) (msg : String) (h : Dict)
    (kw : Dict) (now : ℚ) (hnd : nodupKeys kw = true) :
    (dictMem kw PUBLISHER_TIMESTAMP_HEADER = false →
      dictGet? (transmittedHeaders (mkMessage dest msg (some h) kw now))
        PUBLISHER_TIMESTAMP_HEADER = some (HVal.num now))
    ∧ (dictMem kw PUBLISHER_TIMESTAMP_HEADER = true →
      dictGet? (transmittedHeaders (mkMessage dest msg (some h) kw now))
        PUBLISHER_TIMESTAMP_HEADER = dictGet? kw PUBLISHER_TIMESTAMP_HEADER) := by
  obtain ⟨hn1, hg1⟩ := mkMessage_ts dest msg (some h) kw now hnd
  constructor
  · intro hmem
    unfold transmittedHeaders
    rw [dictGet?_merge _ _ _ hn1, hg1]
    simp [hmem]
  · intro hmem
    unfold transmittedHeaders
    rw [dictGet?_merge _ _ _ hn1, hg1]
    simp only [hmem, if_true]
    have hsome : (dictGet? kw PUBLISHER_TIMESTAMP_HEADER).isSome = true := by
      rw [← dictMem_eq_isSome]
      exact hmem
    cases hkw : dictGet? kw PUBLISHER_TIMESTAMP_HEADER
    · rw [hkw] at hsome
      simp at hsome
    · simp

/-- Witness for C7_theorem, exercising both branches: with the timestamp
header only in the `headers` mapping the transmitted value is the fresh
timestamp 99; with it in the keyword headers the transmitted value is the
caller's. -/
theorem C7_witness :
    dictGet? (transmittedHeaders (mkMessage none "b"
        (some [(PUBLISHER_TIMESTAMP_HEADER, HVal.num 42)]) [] 99))
      PUBLISHER_TIMESTAMP_HEADER = some (HVal.num 99)
    ∧ dictGet? (transmittedHeaders (mkMessage none "b" (some [])
        [(PUBLISHER_TIMESTAMP_HEADER, HVal.num 42)] 99))
      PUBLISHER_TIMESTAMP_HEADER
      = dictGet? [(PUBLISHER_TIMESTAMP_HEADER, HVal.num 42)]
          PUBLISHER_TIMESTAMP_HEADER :=
  ⟨(C7_theorem none "b" [(PUBLISHER_TIMESTAMP_HEADER, HVal.num 42)] [] 99
      rfl).1 rfl,
   (C7_theorem none "b" [] [(PUBLISHER_TIMESTAMP_HEADER, HVal.num 42)] 99
      (by decide)).2 (by decide)⟩

/-- Claim C8: `send` is a total function of its arguments and the current
state — it never raises — and its only effect is to append the constructed
message tuple to the local queue: connection status, broker-operation
counters, the sending flag and the stop flag are all untouched, for any
worker state (before start, after stop, while sending). It takes no broker
environment at all, so it can perform no connection or transmit I/O. -/
theorem C8_theorem (s : RunSt) (dest : Option String) (msg : String)
    (hdrs : Option Dict) (kw : Dict) (now : ℚ) :
    (send s dest msg hdrs kw now).message_queue
      = s.message_queue ++ [mkMessage dest msg hdrs kw now]
    ∧ (send s dest msg hdrs kw now).connected = s.connected
    ∧ (send s dest msg hdrs kw now).sending = s.sending
    ∧ (send s dest msg hdrs kw now).should_stop = s.should_stop
    ∧ (send s dest msg hdrs kw now).idle_timeout = s.idle_timeout
    ∧ (send s dest msg hdrs kw now).connCnt = s.connCnt
    ∧ (send s dest msg hdrs kw now).sendCnt = s.sendCnt :=
  ⟨rfl, rfl, rfl, rfl, rfl, rfl, rfl⟩

/-- Claim C9: FIFO — a sequence of `send` calls appends the corresponding
messages to the queue in call order, and with a reliable broker the drain
loop transmits exactly the queued messages in that same order. -/
theorem C9_theorem (s : RunSt) (rs : List SendReq) :
    (sendAll s rs).message_queue = s.message_queue ++ rs.map mkOf
    ∧ transmitsOf (drain envOk (sendAll s rs)).2.1
      = s.message_queue ++ rs.map mkOf := by
  refine ⟨sendAll_queue rs s, ?_⟩
  rw [(drain_envOk (sendAll s rs)).2.2.1, sendAll_queue rs s]

/-- Claim C10: the sending flag is an invariant of the run loop — every
per-message attempt ends with the flag false, for every broker behaviour
(in particular when the connect or transmit raises, via the `finally`
clause), and a run started with the flag false can only ever be observed
with the flag false, whether it exits normally or by exception. -/
theorem C10_theorem (env : BrokerEnv) (s : RunSt) (fuel : ℕ) :
    (attemptOne env s).1.sending = false
    ∧ (runAux env fuel { s with sending := false }).elim True
        (fun r => r.1.sending = false) :=
  ⟨attemptOne_sending env s,
   runAux_sending env fuel { s with sending := false } rfl⟩
